import Mathlib

/-!
Verification of `src/scvelo/tools/dynamical_model.py`.

Real numbers of the program are embedded as rationals (`ℚ`); numpy
vectors as `List ℚ`.  The helpers of `BaseDynamics` that live in
`dynamical_model_utils` (not part of the given source) — the analytic
time assignment, the loss, the `unspliced` trajectory level, the
divergence / likelihood / variance computations — are abstract functions
collected in an `Env` record, as the spec treats them: "Time assignment
— given parameters ... produces `(t, tau, o)` for all observations",
"Loss — weighted mean squared residual ... at assigned times".
-/

namespace DynModel

/-- A time assignment `(t, tau, o)` as produced by
`BaseDynamics.get_time_assignment`: trajectory time, time since switch,
and the binary branch indicator per observation. -/
structure TimeAssign where
  t : List ℚ
  tau : List ℚ
  o : List ℚ
deriving DecidableEq, Repr

/-- One parameter column `[alpha, beta, gamma, t_, scaling]`, as stacked
into `self.pars` (source line 90 and 312). -/
structure Vars where
  alpha : ℚ
  beta : ℚ
  gamma : ℚ
  scaling : ℚ
  t_ : ℚ
deriving DecidableEq, Repr

/-- The mutable per-gene state of `DynamicsRecovery` — exactly the
fields read or written by `update` (source lines 248-316) and by the
trailing part of `fit` (lines 128-133). -/
structure St where
  alpha : ℚ
  beta : ℚ
  gamma : ℚ
  scaling : ℚ
  t_ : ℚ
  steady_u : ℚ
  u0_ : ℚ
  s0_ : ℚ
  t : List ℚ
  tau : List ℚ
  tau_ : List ℚ
  o : List ℚ
  pars : List Vars
  loss : List ℚ
  likelihood : ℚ
  varx : ℚ
deriving DecidableEq, Repr

/-- The black-box collaborators of `DynamicsRecovery` living in
`dynamical_model_utils` (outside the given source).
`timeAssign v u0 s0 t` models `get_time_assignment(alpha, beta, gamma,
scaling, t_, u0_, s0_, t)` with the `None` parameter-subset resolution
already applied to the five kinetic parameters; `lossFn t v` models
`get_loss(t, t_, alpha, beta, gamma, scaling)`; `unsplicedFn t u0 alpha
beta` models `unspliced(t, u0, alpha, beta)`. -/
structure Env where
  timeAssign : Vars → Option ℚ → Option ℚ → Option (List ℚ) → TimeAssign
  lossFn : List ℚ → Vars → ℚ
  unsplicedFn : ℚ → ℚ → ℚ → ℚ → ℚ
  divergenceTau : St → List ℚ × List ℚ
  likelihoodFn : St → ℚ
  varFn : St → ℚ

/-- The optional keyword arguments of `update` (source lines 248-259),
`None` encoded as `none`; `adjust_t_` defaults to `True`. -/
structure Candidate where
  t : Option (List ℚ) := none
  t_ : Option ℚ := none
  alpha : Option ℚ := none
  beta : Option ℚ := none
  gamma : Option ℚ := none
  scaling : Option ℚ := none
  u0_ : Option ℚ := none
  s0_ : Option ℚ := none
  adjust_t_ : Bool := true
deriving DecidableEq, Repr

/-- Modelled from the spec: `BaseDynamics.get_vars` is defined in
`dynamical_model_utils`, which is not part of the given source; per the
spec, `update` "computes a full candidate state from the subset of
changed parameters (others held at current values)". -/
def getVars (s : St) (c : Candidate) : Vars :=
  { alpha := c.alpha.getD s.alpha
    beta := c.beta.getD s.beta
    gamma := c.gamma.getD s.gamma
    scaling := c.scaling.getD s.scaling
    t_ := c.t_.getD s.t_ }

/-- The current five kinetic parameters of the state, i.e.
`self.get_vars()` with no arguments. -/
def varsOf (s : St) : Vars :=
  { alpha := s.alpha, beta := s.beta, gamma := s.gamma,
    scaling := s.scaling, t_ := s.t_ }

/-- `np.max` on a vector (used on the nonempty `t`). -/
def npMax (l : List ℚ) : ℚ := l.foldl max (l.headD 0)

/-- `t[on].max()` where `on = (o == 1)`: maximum of the entries of `t`
at positions whose `o`-value is `1` (source line 276). -/
def maskedMax (t o : List ℚ) : ℚ :=
  npMax (((t.zip o).filter (fun p => decide (p.2 = 1))).map Prod.fst)

/-- `np.sum(t == x)`: how many entries of `t` equal `x`. -/
def countEq (t : List ℚ) (x : ℚ) : ℕ :=
  (t.filter (fun y => decide (y = x))).length

/-- `np.any(self.o == 1)` (source line 269-270). -/
def anySteady (o : List ℚ) : Bool := o.any (fun x => decide (x = 1))

/-- `loss_prev = self.loss[-1] if len(self.loss) > 0 else 1e6`
(source line 260). -/
def lossPrev (s : St) : ℚ := s.loss.getLastD 1000000

/-- The resolved candidate parameters `_vars` (source line 262). -/
def candVars (s : St) (c : Candidate) : Vars := getVars s c

/-- The candidate time assignment `_time` (source line 263): the raw
optional arguments are handed to `get_time_assignment`, which resolves
the kinetic-parameter subset exactly as `get_vars` does. -/
def candTa (env : Env) (s : St) (c : Candidate) : TimeAssign :=
  env.timeAssign (candVars s c) c.u0_ c.s0_ c.t

/-- The candidate loss (source line 266). -/
def candLoss (env : Env) (s : St) (c : Candidate) : ℚ :=
  env.lossFn (candTa env s c).t (candVars s c)

/-- `perform_update = loss < loss_prev` before the escape heuristic
(source line 267). -/
def plainOk (env : Env) (s : St) (c : Candidate) : Bool :=
  decide (candLoss env s c < lossPrev s)

/-- `self.get_time_assignment()` with no arguments: recomputed from the
current parameters (source line 273). -/
def currTa (env : Env) (s : St) : TimeAssign :=
  env.timeAssign (varsOf s) none none none

/-- `self.get_loss()` with no arguments (source line 274): the loss of
the recomputed current assignment under the current parameters. -/
def currLoss (env : Env) (s : St) : ℚ :=
  env.lossFn (currTa env s).t (varsOf s)

/-- The working parameters inside the escape branch: the candidate when
`perform_update` held, otherwise reverted to the current state
(source lines 271-274). -/
def baseVars (env : Env) (s : St) (c : Candidate) : Vars :=
  if plainOk env s c then candVars s c else varsOf s

/-- The working time assignment inside the escape branch. -/
def baseTa (env : Env) (s : St) (c : Candidate) : TimeAssign :=
  if plainOk env s c then candTa env s c else currTa env s

/-- The working loss inside the escape branch. -/
def baseLoss (env : Env) (s : St) (c : Candidate) : ℚ :=
  if plainOk env s c then candLoss env s c else currLoss env s

/-- `alt_t_ = t[on].max()` before the stretch (source line 276); the
mask comes from the stored `self.o`, the values from the working `t`. -/
def altRaw (env : Env) (s : St) (c : Candidate) : ℚ :=
  maskedMax (baseTa env s c).t s.o

/-- The stretched switching time
`alt_t_ += np.max(t) / len(t) * np.sum(t == t_)` (source line 279). -/
def altT (env : Env) (s : St) (c : Candidate) : ℚ :=
  altRaw env s c +
    npMax (baseTa env s c).t / ((baseTa env s c).t.length : ℚ) *
      (countEq (baseTa env s c).t (baseVars env s c).t_ : ℚ)

/-- The working parameters with the stretched switching time. -/
def altVars (env : Env) (s : St) (c : Candidate) : Vars :=
  { baseVars env s c with t_ := altT env s c }

/-- `get_time_assignment(alpha, beta, gamma, scaling, alt_t_)`
(source line 281). -/
def altTa (env : Env) (s : St) (c : Candidate) : TimeAssign :=
  env.timeAssign (altVars env s c) none none none

/-- `alt_loss` (source line 283). -/
def altLoss (env : Env) (s : St) (c : Candidate) : ℚ :=
  env.lossFn (altTa env s c).t (altVars env s c)

/-- `ut_cur = unspliced(t_, 0, alpha, beta)` (source line 284). -/
def utCur (env : Env) (s : St) (c : Candidate) : ℚ :=
  env.unsplicedFn (baseVars env s c).t_ 0 (baseVars env s c).alpha
    (baseVars env s c).beta

/-- `ut_alt = unspliced(alt_t_, 0, alpha, beta)` (source line 285). -/
def utAlt (env : Env) (s : St) (c : Candidate) : ℚ :=
  env.unsplicedFn (altT env s c) 0 (baseVars env s c).alpha
    (baseVars env s c).beta

/-- The guards that reach the inner escape test: `adjust_t_` is on, some
observation is on the steady branch, and `0 < alt_t_ < t_` holds for
the pre-stretch `alt_t_` (source lines 270 and 277). -/
def escActive (env : Env) (s : St) (c : Candidate) : Bool :=
  c.adjust_t_ && anySteady s.o && decide (0 < altRaw env s c) &&
    decide (altRaw env s c < (baseVars env s c).t_)

/-- The escape acceptance test
`alt_loss * 0.99 <= min_loss or ut_cur * 0.99 < ut_alt`
(source lines 287-288). -/
def escOk (env : Env) (s : St) (c : Candidate) : Bool :=
  escActive env s c &&
    (decide (altLoss env s c * (99 / 100) ≤
        min (baseLoss env s c) (lossPrev s)) ||
      decide (utCur env s c * (99 / 100) < utAlt env s c))

/-- The state mutation on acceptance (source lines 300-314): rescale
`steady_u` and `u0_` by the scaling ratio, override `u0_` / `s0_` when
explicitly passed, install the accepted parameters and assignment, and
append one `pars` column and one loss entry. -/
def acceptSt (s : St) (c : Candidate) (v : Vars) (ta : TimeAssign)
    (lossNew : ℚ) : St :=
  { s with
    steady_u := s.steady_u * (s.scaling / v.scaling)
    u0_ := c.u0_.getD (s.u0_ * (s.scaling / v.scaling))
    s0_ := c.s0_.getD s.s0_
    t := ta.t, tau := ta.tau, o := ta.o
    alpha := v.alpha, beta := v.beta, gamma := v.gamma
    scaling := v.scaling, t_ := v.t_
    pars := s.pars ++ [v]
    loss := s.loss ++ [lossNew] }

/-- `DynamicsRecovery.update` (source lines 248-316), compiled to a pure
transition.  The python mutates locals in place; the net effect is: if
the escape test fires, accept the stretched state built on the working
(candidate or reverted) parameters; otherwise accept the plain candidate
exactly when its loss improved; otherwise leave the state untouched.
The returned boolean is `perform_update`. -/
def update (env : Env) (s : St) (c : Candidate) : St × Bool :=
  if escOk env s c then
    (acceptSt s c (altVars env s c) (altTa env s c) (altLoss env s c), true)
  else if plainOk env s c then
    (acceptSt s c (candVars s c) (candTa env s c) (candLoss env s c), true)
  else (s, false)

/-- The acceptance condition exactly as claim C1 words it: the escape
test is evaluated on the **candidate** state — its time assignment, its
switching time `t_`, and its loss — rather than on the working state the
code actually uses after reverting a rejected candidate. -/
def c1ClaimDecision (env : Env) (s : St) (c : Candidate) : Bool :=
  plainOk env s c ||
    (c.adjust_t_ && anySteady s.o &&
      (let a0 := maskedMax (candTa env s c).t s.o
       decide (0 < a0) && decide (a0 < (candVars s c).t_) &&
        (let at_ := a0 +
            npMax (candTa env s c).t / (((candTa env s c).t.length : ℚ)) *
              ((countEq (candTa env s c).t (candVars s c).t_ : ℚ))
         let av : Vars := { candVars s c with t_ := at_ }
         decide (env.lossFn (env.timeAssign av none none none).t av *
              (99 / 100) ≤ min (candLoss env s c) (lossPrev s)) ||
          decide (env.unsplicedFn (candVars s c).t_ 0 (candVars s c).alpha
              (candVars s c).beta * (99 / 100) <
            env.unsplicedFn at_ 0 (candVars s c).alpha (candVars s c).beta))))

/-- `DynamicsRecovery.fit` with `max_iter = 0` (source lines 108-133):
the whole multi-stage schedule under `if self.max_iter > 0` is skipped,
and only the trailing code runs: `self.update()` with all defaults,
`self.tau, self.tau_ = self.get_divergence(mode="tau")`,
`self.likelihood = ...`, `self.varx = ...`. -/
def fitZero (env : Env) (s : St) : St :=
  let s1 := (update env s {}).1
  let d := env.divergenceTau s1
  let s2 := { s1 with tau := d.1, tau_ := d.2 }
  { s2 with likelihood := env.likelihoodFn s2, varx := env.varFn s2 }

/-- The invariant `initialize` establishes for the fields `update` reads
(source lines 92-94, maintained by every accepted `update`): the stored
assignment is the one recomputed from the current parameters, and the
last recorded loss is the loss of that assignment. -/
def Consistent (env : Env) (s : St) : Prop :=
  currTa env s = { t := s.t, tau := s.tau, o := s.o } ∧
  s.loss ≠ [] ∧ s.loss.getLastD 1000000 = env.lossFn s.t (varsOf s)

/-- The outcome of one `test_bimodality` call: test statistic, p-value,
and the two group means (`means[0]`, `means[1]`).  An exception raised
by the black-box test is `Except.error ()`. -/
structure BimodStats where
  tstat : ℚ
  pval : ℚ
  mean0 : ℚ
  mean1 : ℚ
deriving DecidableEq, Repr

/-- The quantities produced by the bimodality section of `initialize`
(source lines 64-81). -/
structure BimodOutcome where
  pval_steady : ℚ
  steady_u : ℚ
  steady_s : ℚ
  alpha : ℚ
  beta : ℚ
  u0_ : ℚ
  s0_ : ℚ
deriving DecidableEq, Repr

/-- The neutral defaults substituted in the `except` clause (source
lines 70-71): `tstat 0, pval 1, means [0, 0]`. -/
def bimodDefaults : BimodStats := ⟨0, 1, 0, 0⟩

/-- The `try`/`except` of `initialize` (source lines 65-71): the `try`
covers both `test_bimodality` calls, so a failure of either replaces
**both** results by the neutral defaults (the warning log is a side
effect outside the state model). -/
def bimodResolve (ru rs : Except Unit BimodStats) :
    BimodStats × BimodStats :=
  match ru, rs with
  | Except.ok bu, Except.ok bs => (bu, bs)
  | _, _ => (bimodDefaults, bimodDefaults)

/-- The bimodality section of `DynamicsRecovery.initialize` (source
lines 64-81): after the `try`/`except`, `pval_steady = max(pval_u,
pval_s)`, `steady_u = means_u[1]`, `steady_s = means_s[1]`, and the
`alpha`/`beta`/`u0_`/`s0_` blend runs only when `pval_steady < 1e-3`. -/
def bimodalitySection (ru rs : Except Unit BimodStats)
    (u_inf s_inf alpha beta gamma : ℚ) : BimodOutcome :=
  let bu := (bimodResolve ru rs).1
  let bs := (bimodResolve ru rs).2
  let pval_steady := max bu.pval bs.pval
  let steady_u := bu.mean1
  let steady_s := bs.mean1
  if pval_steady < 1 / 1000 then
    let u_inf2 := (u_inf + steady_u) / 2
    let alpha2 := gamma * s_inf
    ⟨pval_steady, steady_u, steady_s, alpha2, alpha2 / u_inf2, u_inf2, s_inf⟩
  else
    ⟨pval_steady, steady_u, steady_s, alpha, beta, u_inf, s_inf⟩

end DynModel

namespace DynEngine

open DynModel

/-- The snapshot of a fitted `DynamicsRecovery` that
`RecoverDynamicsFitResult.collect` reads (source lines 528-561).
Genes are identified by their column index in `adata.var_names`
(`get_loc` is the identity on indices). -/
structure GeneFit where
  recoverable : Bool
  t : List ℚ
  tau : List ℚ
  tau_ : List ℚ
  parsLast : Vars
  u0 : ℚ
  s0 : ℚ
  pval_steady : ℚ
  steady_u : ℚ
  steady_s : ℚ
  std_u : ℚ
  std_s : ℚ
  likelihood : ℚ
  varx : ℚ
  loss : List ℚ
deriving DecidableEq, Repr

/-- The per-gene column of the aggregated result: the slices
`T[:, ix]`, `Tau[:, ix]`, `Tau_[:, ix]`, the scalar parameter entries,
and the gene's row of the loss-trace matrix. -/
structure FitEntry where
  T : List ℚ
  Tau : List ℚ
  Tau_ : List ℚ
  alpha : ℚ
  beta : ℚ
  gamma : ℚ
  t_ : ℚ
  scaling : ℚ
  u0 : ℚ
  s0 : ℚ
  pval : ℚ
  steady_u : ℚ
  steady_s : ℚ
  std_u : ℚ
  std_s : ℚ
  likelihood : ℚ
  varx : ℚ
  lossTrace : List ℚ
deriving DecidableEq, Repr

/-- What `collect` writes at index `ix` for a recoverable gene (source
lines 535-550): the last `pars` column, then `beta[ix] /= scaling[ix]`
and `steady_u[ix] *= scaling[ix]`. -/
def entryOf (dm : GeneFit) : FitEntry :=
  let a := dm.parsLast
  { T := dm.t, Tau := dm.tau, Tau_ := dm.tau_
    alpha := a.alpha, beta := a.beta / a.scaling, gamma := a.gamma
    t_ := a.t_, scaling := a.scaling
    u0 := dm.u0, s0 := dm.s0, pval := dm.pval_steady
    steady_u := dm.steady_u * a.scaling, steady_s := dm.steady_s
    std_u := dm.std_u, std_s := dm.std_s
    likelihood := dm.likelihood, varx := dm.varx
    lossTrace := dm.loss }

/-- The aggregated state of `RecoverDynamicsFitResult` as a gene-indexed
map: `entries ix = some e` means column `ix` of every output array has
been overwritten with `e` (the pre-existing `read_pars` values behind
`none` are shared by both engines and cancel in any comparison);
`dm` is the remembered model of the last listed gene. -/
structure ResultState where
  entries : ℕ → Option FitEntry
  dm : Option (ℕ × GeneFit)

/-- `RecoverDynamicsFitResult.collect` (source lines 528-561): write the
gene's column when it is recoverable (otherwise only warn), and remember
the model when the gene is the last entry of `var_names`. -/
def collect (lastGene : Option ℕ) (st : ResultState) (ret : ℕ × GeneFit) :
    ResultState :=
  let st1 :=
    if ret.2.recoverable then
      { st with entries := fun n =>
          if n = ret.1 then some (entryOf ret.2) else st.entries n }
    else st
  if some ret.1 = lastGene then { st1 with dm := some ret } else st1

/-- The outputs `(gene, dm)` of a fixed work function on a task list, in
task order — what `SequentialEngine.run` feeds to `collect` one by one
(source lines 614-621). -/
def outputsOf (work : ℕ → GeneFit) (tasks : List ℕ) : List (ℕ × GeneFit) :=
  tasks.map (fun g => (g, work g))

/-- Split a list into consecutive chunks of `B` (the batches a worker
claims and pushes onto the queue as single messages); the fuel is the
list length, enough for any `B ≥ 1`. -/
def batchesGo : ℕ → ℕ → List α → List (List α)
  | 0, _, _ => []
  | _, _, [] => []
  | Nat.succ fuel, B, l => l.take B :: batchesGo fuel B (l.drop B)

/-- All batches of size `B` of a list, in order. -/
def batches (B : ℕ) (l : List α) : List (List α) := batchesGo l.length B l

/-- Folding `collect` over an arrival sequence, starting from the
initial `read_pars` state — the collection loops of both engines
(source lines 617-619 and 689-697). -/
def collectRun (lastGene : Option ℕ) (init : ResultState)
    (arrival : List (ℕ × GeneFit)) : ResultState :=
  arrival.foldl (collect lastGene) init

/-- The batch of task indices a worker claims at counter value `c`:
`var_names[c : c + B]` (source line 453). -/
def batchAt (N B c : ℕ) : List ℕ := List.range' c (min B (N - c))

/-- The shared coordination state of the worker pool: the value of the
mutex-protected counter, the claims performed so far in lock order
(worker id and claimed index batch), and the workers that have
returned. -/
structure PoolState where
  counter : ℕ
  claims : List (ℕ × List ℕ)
  exited : List ℕ
deriving DecidableEq, Repr

/-- One lock acquisition by worker `w` in
`work_recover_dynamics_fit_queue` (source lines 446-458): a worker that
already returned does nothing; otherwise, if the counter is below the
task count it claims `var_names[c : c + B]` and advances the counter by
`batch_size`, else it returns. -/
def poolStep (N B : ℕ) (st : PoolState) (w : ℕ) : PoolState :=
  if w ∈ st.exited then st
  else if st.counter < N then
    { st with counter := st.counter + B
              claims := st.claims ++ [(w, batchAt N B st.counter)] }
  else { st with exited := st.exited ++ [w] }

/-- The pool before any worker runs: counter `0`, no claims, everyone
live (source lines 664-666). -/
def initPool : PoolState := { counter := 0, claims := [], exited := [] }

/-- Run the pool under an arbitrary interleaving: `evs` is the sequence
of workers that successively win the lock. -/
def runPool (N B : ℕ) (evs : List ℕ) : PoolState :=
  evs.foldl (poolStep N B) initPool

/-- All task indices claimed so far, in lock order. -/
def claimedIndices (st : PoolState) : List ℕ :=
  (st.claims.map Prod.snd).flatten

/-- The invariant of the claim loop: the counter equals `B` times the
number of claims, the claimed indices so far are exactly
`[0, min(counter, N))` in order, and the counter never exceeds
`N + B - 1`. -/
def PoolInv (N B : ℕ) (st : PoolState) : Prop :=
  st.counter = B * st.claims.length ∧
  claimedIndices st = List.range (min st.counter N) ∧
  st.counter ≤ N + B - 1

end DynEngine

open DynModel DynEngine

/-- A concrete instantiation of the abstract collaborators: constant
time assignment `t = [2]`, `tau = [0]`, `o = [1]`, constant loss `10`. -/
def exEnvA : Env :=
  { timeAssign := fun _ _ _ _ => ⟨[2], [0], [1]⟩
    lossFn := fun _ _ => 10
    unsplicedFn := fun _ _ _ _ => 0
    divergenceTau := fun s => (s.tau, s.tau_)
    likelihoodFn := fun _ => 0
    varFn := fun _ => 0 }

/-- A state consistent with `exEnvA`: all rates `1`, switching time `2`,
one observation on the steady branch, last accepted loss `10`. -/
def exStA : St :=
  { alpha := 1, beta := 1, gamma := 1, scaling := 1, t_ := 2
    steady_u := 0, u0_ := 0, s0_ := 0
    t := [2], tau := [0], tau_ := [0], o := [1]
    pars := [⟨1, 1, 1, 2, 1⟩], loss := [10], likelihood := 0, varx := 0 }

/-- The candidate `update(t_=5)`. -/
def exCandA : Candidate := { t_ := some 5 }

/-- Collaborators under which the escape rule fires through the
unspliced-level disjunct with a much larger loss: the time assignment is
constantly `t = [1]` with `o = [1]`, the loss is `100` at switching time
`1` and `10` elsewhere, and the unspliced switch level is `4 - t_`. -/
def exEnvB : Env :=
  { timeAssign := fun _ _ _ _ => ⟨[1], [0], [1]⟩
    lossFn := fun _ v => if v.t_ = 1 then 100 else 10
    unsplicedFn := fun tt _ _ _ => 4 - tt
    divergenceTau := fun s => (s.tau, s.tau_)
    likelihoodFn := fun _ => 0
    varFn := fun _ => 0 }

/-- A state for `exEnvB`: switching time `2`, last accepted loss `10`,
`u0_ = 7`. -/
def exStB : St :=
  { alpha := 1, beta := 1, gamma := 1, scaling := 1, t_ := 2
    steady_u := 0, u0_ := 7, s0_ := 0
    t := [1], tau := [0], tau_ := [0], o := [1]
    pars := [⟨1, 1, 1, 2, 1⟩], loss := [10], likelihood := 0, varx := 0 }

/-- The candidate `update(u0_=5)`. -/
def exCandD : Candidate := { u0_ := some 5 }

/-- Collaborators under which the escape rule of the trailing
`self.update()` of `fit` fires and moves the switching time: at
`t_ = 2` the assignment is `t = [1]`, elsewhere `t = [3]`; the loss is
constantly `10`. -/
def exEnvC : Env :=
  { timeAssign := fun v _ _ _ =>
      if v.t_ = 2 then ⟨[1], [0], [1]⟩ else ⟨[3], [0], [1]⟩
    lossFn := fun _ _ => 10
    unsplicedFn := fun _ _ _ _ => 0
    divergenceTau := fun s => (s.tau, s.tau_)
    likelihoodFn := fun _ => 0
    varFn := fun _ => 0 }

/-- A state consistent with `exEnvC` (as `initialize` would leave it):
switching time `2`, stored assignment `t = [1]`, `o = [1]`, loss trace
`[10]`. -/
def exStC : St :=
  { alpha := 1, beta := 1, gamma := 1, scaling := 1, t_ := 2
    steady_u := 0, u0_ := 0, s0_ := 0
    t := [1], tau := [0], tau_ := [0], o := [1]
    pars := [⟨1, 1, 1, 2, 1⟩], loss := [10], likelihood := 0, varx := 0 }

/-- A recoverable gene snapshot for exercising `collect`. -/
def gfA : GeneFit :=
  { recoverable := true, t := [1], tau := [0], tau_ := [0]
    parsLast := ⟨1, 1, 1, 1, 1⟩, u0 := 1, s0 := 1, pval_steady := 1
    steady_u := 1, steady_s := 1, std_u := 1, std_s := 1
    likelihood := 1, varx := 1, loss := [1] }

/-- A non-recoverable gene snapshot for exercising `collect`. -/
def gfB : GeneFit :=
  { recoverable := false, t := [], tau := [], tau_ := []
    parsLast := ⟨0, 0, 0, 0, 0⟩, u0 := 0, s0 := 0, pval_steady := 0
    steady_u := 0, steady_s := 0, std_u := 0, std_s := 0
    likelihood := 0, varx := 0, loss := [] }

/-- A concrete work function over two genes. -/
def exWork : ℕ → GeneFit := fun g => if g = 0 then gfA else gfB

/-- The empty aggregated result (no column written yet, no remembered
model). -/
def exInit : ResultState := { entries := fun _ => none, dm := none }

/-! ## Helper lemmas -/

/-- Branch equation: when the escape test fires, `update` accepts the
stretched state built on the working parameters. -/
theorem update_esc (env : Env) (s : St) (c : Candidate)
    (h : escOk env s c = true) :
    update env s c =
      (acceptSt s c (altVars env s c) (altTa env s c) (altLoss env s c),
        true) := by
  simp [update, h]

/-- Branch equation: when the escape test does not fire but the
candidate loss improved, `update` accepts the plain candidate. -/
theorem update_plain (env : Env) (s : St) (c : Candidate)
    (h1 : escOk env s c = false) (h2 : plainOk env s c = true) :
    update env s c =
      (acceptSt s c (candVars s c) (candTa env s c) (candLoss env s c),
        true) := by
  simp [update, h1, h2]

/-- Branch equation: when neither test fires, `update` leaves the state
untouched and reports rejection. -/
theorem update_reject (env : Env) (s : St) (c : Candidate)
    (h1 : escOk env s c = false) (h2 : plainOk env s c = false) :
    update env s c = (s, false) := by
  simp [update, h1, h2]

/-- `plainOk` unfolded to its defining inequality. -/
theorem plainOk_iff (env : Env) (s : St) (c : Candidate) :
    plainOk env s c = true ↔ candLoss env s c < lossPrev s := by
  simp [plainOk]

/-- `escOk` unfolded to its defining conjunction. -/
theorem escOk_iff (env : Env) (s : St) (c : Candidate) :
    escOk env s c = true ↔
      (c.adjust_t_ = true ∧ anySteady s.o = true ∧
        0 < altRaw env s c ∧ altRaw env s c < (baseVars env s c).t_ ∧
        (altLoss env s c * (99 / 100) ≤ min (baseLoss env s c) (lossPrev s) ∨
          utCur env s c * (99 / 100) < utAlt env s c)) := by
  simp only [escOk, escActive, Bool.and_eq_true, Bool.or_eq_true,
    decide_eq_true_eq, and_assoc]

/-- `update` with the all-default candidate leaves the four plain rates
unchanged in every branch, since the resolved candidate parameters are
the current ones and the escape branch only moves `t_`. -/
theorem update_empty_vars (env : Env) (s : St) :
    (update env s {}).1.alpha = s.alpha ∧ (update env s {}).1.beta = s.beta ∧
    (update env s {}).1.gamma = s.gamma ∧
    (update env s {}).1.scaling = s.scaling := by
  have hc : candVars s {} = varsOf s := rfl
  have hb : baseVars env s {} = varsOf s := by
    unfold baseVars; rw [hc]; exact ite_self _
  by_cases h1 : escOk env s {} = true
  · rw [update_esc env s {} h1]
    simp [acceptSt, altVars, hb, varsOf]
  · have h1f : escOk env s {} = false := by
      revert h1; cases escOk env s {} <;> simp
    by_cases h2 : plainOk env s {} = true
    · rw [update_plain env s {} h1f h2]
      simp [acceptSt, hc, varsOf]
    · have h2f : plainOk env s {} = false := by
        revert h2; cases plainOk env s {} <;> simp
      rw [update_reject env s {} h1f h2f]
      exact ⟨rfl, rfl, rfl, rfl⟩

/-- A failing `test_bimodality` call on either signal yields the neutral
defaults for both. -/
theorem bimodResolve_err (ru rs : Except Unit BimodStats)
    (h : ru = Except.error () ∨ rs = Except.error ()) :
    bimodResolve ru rs = (bimodDefaults, bimodDefaults) := by
  rcases h with h | h <;> subst h
  · cases rs <;> rfl
  · cases ru <;> rfl

/-- Extensionality for the aggregated result state. -/
theorem ResultState.ext' {a b : ResultState}
    (he : ∀ n, a.entries n = b.entries n) (hd : a.dm = b.dm) : a = b := by
  cases a; cases b
  simp only [ResultState.mk.injEq]
  exact ⟨funext he, hd⟩

/-- The per-index effect of `collect` on the aggregated columns. -/
theorem collect_entries (lg : Option ℕ) (st : ResultState)
    (r : ℕ × GeneFit) (n : ℕ) :
    (collect lg st r).entries n =
      if r.2.recoverable ∧ n = r.1 then some (entryOf r.2)
      else st.entries n := by
  unfold collect
  by_cases hr : r.2.recoverable <;> by_cases hl : some r.1 = lg <;>
    by_cases hn : n = r.1 <;> simp_all

/-- The effect of `collect` on the remembered model. -/
theorem collect_dm (lg : Option ℕ) (st : ResultState) (r : ℕ × GeneFit) :
    (collect lg st r).dm = if some r.1 = lg then some r else st.dm := by
  unfold collect
  by_cases hr : r.2.recoverable <;> by_cases hl : some r.1 = lg <;> simp_all

/-- Two `collect` calls with distinct gene indices commute: each task's
contribution is keyed by its own gene identity. -/
theorem collect_comm (lg : Option ℕ) (x y : ℕ × GeneFit) (hxy : x.1 ≠ y.1)
    (st : ResultState) :
    collect lg (collect lg st x) y = collect lg (collect lg st y) x := by
  apply ResultState.ext'
  · intro n
    simp only [collect_entries]
    by_cases hx : n = x.1 <;> by_cases hy : n = y.1 <;> simp_all
  · simp only [collect_dm]
    by_cases hx : some x.1 = lg
    · by_cases hy : some y.1 = lg
      · exact absurd (Option.some.inj (hx.trans hy.symm)) hxy
      · simp [hx, hy]
    · by_cases hy : some y.1 = lg <;> simp [hx, hy]

/-- Concatenating the size-`B` batches of a list gives back the list. -/
theorem batchesGo_flatten {α : Type} (fuel B : ℕ) (hB : 1 ≤ B) :
    ∀ l : List α, l.length ≤ fuel → (batchesGo fuel B l).flatten = l := by
  induction fuel with
  | zero =>
    intro l hl
    have : l = [] := List.length_eq_zero.mp (Nat.le_zero.mp hl)
    subst this; rfl
  | succ fuel ih =>
    intro l hl
    match l with
    | [] => rfl
    | a :: l' =>
      show (((a :: l').take B :: batchesGo fuel B ((a :: l').drop B)).flatten) = _
      rw [List.flatten_cons, ih _ ?_, List.take_append_drop]
      have hd : ((a :: l').drop B).length = (a :: l').length - B := by
        simp [List.length_drop]
      rw [hd]
      simp only [List.length_cons] at hl ⊢
      omega

/-- `batches` is a partition of the list into consecutive chunks. -/
theorem batches_flatten {α : Type} (B : ℕ) (hB : 1 ≤ B) (l : List α) :
    (batches B l).flatten = l :=
  batchesGo_flatten l.length B hB l le_rfl

/-- One lock acquisition preserves the claim-loop invariant. -/
theorem poolStep_inv (N B : ℕ) (st : PoolState) (w : ℕ)
    (h : PoolInv N B st) : PoolInv N B (poolStep N B st w) := by
  obtain ⟨h1, h2, h3⟩ := h
  unfold poolStep
  split_ifs with hw hc
  · exact ⟨h1, h2, h3⟩
  · refine ⟨?_, ?_, ?_⟩
    · show st.counter + B = B * (st.claims ++ [(w, batchAt N B st.counter)]).length
      rw [List.length_append, h1]
      simp [Nat.mul_add]
    · show claimedIndices _ = _
      unfold claimedIndices at h2 ⊢
      simp only [List.map_append, List.map_cons, List.map_nil,
        List.flatten_append, List.flatten_cons, List.flatten_nil,
        List.append_nil, h2]
      have hmin : min st.counter N = st.counter := Nat.min_eq_left (le_of_lt hc)
      rw [hmin, batchAt]
      rw [List.range_eq_range', List.range_eq_range']
      have happ := List.range'_append_1 0 st.counter (min B (N - st.counter))
      rw [Nat.zero_add] at happ
      rw [happ]
      congr 1
      omega
    · show st.counter + B ≤ N + B - 1
      omega
  · exact ⟨h1, h2, h3⟩

/-- The claim-loop invariant holds after any interleaving of lock
acquisitions. -/
theorem runPool_inv (N B : ℕ) (evs : List ℕ) :
    PoolInv N B (runPool N B evs) := by
  have hinit : PoolInv N B initPool := by
    refine ⟨by simp [initPool], by simp [initPool, claimedIndices], ?_⟩
    show (0 : ℕ) ≤ N + B - 1
    omega
  have gen : ∀ (l : List ℕ) (st : PoolState), PoolInv N B st →
      PoolInv N B (l.foldl (poolStep N B) st) := by
    intro l
    induction l with
    | nil => intro st h; exact h
    | cons a l ih => intro st h; exact ih _ (poolStep_inv N B st a h)
  exact gen evs initPool hinit

/-! ## Claim theorems -/

/-- C1 (amended): `DynamicsRecovery.update` accepts iff the candidate
loss is strictly below the last accepted loss, or `adjust_t_` is enabled,
some observation is currently assigned `o == 1`, and — with the escape
test evaluated on the **working** state, which is the candidate when its
loss improved and the previously accepted state otherwise — the
pre-stretch `alt_t_` satisfies `0 < alt_t_ < t_` and the stretched
`alt_t_` yields a loss within the 1% relative tolerance of the minimum of
the working and previous losses, or a strictly larger unspliced level at
the switch point.  (The claim as frozen evaluates the escape test on the
candidate state; the code reverts to the previous state first.) -/
theorem c1_update_accepts_iff (env : Env) (s : St) (c : Candidate) :
    (update env s c).2 = true ↔
      (candLoss env s c < lossPrev s ∨
        (c.adjust_t_ = true ∧ anySteady s.o = true ∧
          0 < altRaw env s c ∧ altRaw env s c < (baseVars env s c).t_ ∧
          (altLoss env s c * (99 / 100) ≤ min (baseLoss env s c) (lossPrev s) ∨
            utCur env s c * (99 / 100) < utAlt env s c))) := by
  by_cases h1 : escOk env s c = true
  · rw [update_esc env s c h1]
    simp only [true_iff]
    exact Or.inr ((escOk_iff env s c).1 h1)
  · have h1f : escOk env s c = false := by
      revert h1; cases escOk env s c <;> simp
    by_cases h2 : plainOk env s c = true
    · rw [update_plain env s c h1f h2]
      simp only [true_iff]
      exact Or.inl ((plainOk_iff env s c).1 h2)
    · have h2f : plainOk env s c = false := by
        revert h2; cases plainOk env s c <;> simp
      rw [update_reject env s c h1f h2f]
      constructor
      · intro hcon; cases hcon
      · rintro (hl | hr)
        · exact absurd ((plainOk_iff env s c).2 hl) (by simp [h2f])
        · exact absurd ((escOk_iff env s c).2 hr) (by simp [h1f])

/-- C1 counterexample: with the candidate `t_ = 5` against the state
`exStA` (current `t_ = 2`, assignment constantly `t = [2]`), the code
rejects — after the revert, `alt_t_ = 2` is not below the current
`t_ = 2` — while the decision worded by the claim (escape on the
candidate state, `alt_t_ = 2 < 5`) accepts. -/
theorem c1_counterexample :
    (update exEnvA exStA exCandA).2 = false ∧
    c1ClaimDecision exEnvA exStA exCandA = true := by
  constructor
  · norm_num [update, escOk, escActive, plainOk, candLoss, candTa, candVars,
      getVars, lossPrev, baseVars, baseTa, baseLoss, altRaw, altT, altVars,
      altTa, altLoss, utCur, utAlt, currTa, currLoss, varsOf, maskedMax,
      npMax, countEq, anySteady, exEnvA, exStA, exCandA]
  · norm_num [c1ClaimDecision, plainOk, candLoss, candTa, candVars, getVars,
      lossPrev, maskedMax, npMax, countEq, anySteady, exEnvA, exStA, exCandA]

/-- C2 (amended): every accepted `update` either lowers the loss, or
exceeds the previous accepted loss by at most the 1% relative tolerance
(`new_loss * 0.99 ≤ previous`), or was admitted through the
unspliced-level disjunct of the escape rule — which carries **no** bound
on the accepted loss.  (The claim as frozen asserts the 1% bound for all
escape acceptances.) -/
theorem c2_loss_bound (env : Env) (s : St) (c : Candidate)
    (h : (update env s c).2 = true) :
    (update env s c).1.loss.getLastD 0 < lossPrev s ∨
    (update env s c).1.loss.getLastD 0 * (99 / 100) ≤ lossPrev s ∨
    (escOk env s c = true ∧ utCur env s c * (99 / 100) < utAlt env s c) := by
  by_cases h1 : escOk env s c = true
  · rw [update_esc env s c h1]
    simp only [acceptSt, List.getLastD_concat]
    rcases ((escOk_iff env s c).1 h1).2.2.2.2 with ha | hb
    · exact Or.inr (Or.inl (le_trans ha (min_le_right _ _)))
    · exact Or.inr (Or.inr ⟨h1, hb⟩)
  · have h1f : escOk env s c = false := by
      revert h1; cases escOk env s c <;> simp
    by_cases h2 : plainOk env s c = true
    · rw [update_plain env s c h1f h2]
      simp only [acceptSt, List.getLastD_concat]
      exact Or.inl ((plainOk_iff env s c).1 h2)
    · have h2f : plainOk env s c = false := by
        revert h2; cases plainOk env s c <;> simp
      rw [update_reject env s c h1f h2f] at h; cases h

/-- C2 witness: the bound theorem applied at a concrete accepted
update. -/
theorem c2_loss_bound_witness :
    (update exEnvB exStB {}).1.loss.getLastD 0 < lossPrev exStB ∨
    (update exEnvB exStB {}).1.loss.getLastD 0 * (99 / 100) ≤ lossPrev exStB ∨
    (escOk exEnvB exStB {} = true ∧
      utCur exEnvB exStB {} * (99 / 100) < utAlt exEnvB exStB {}) :=
  c2_loss_bound exEnvB exStB {} (by
    norm_num [update, escOk, escActive, plainOk, candLoss, candTa, candVars,
      getVars, lossPrev, baseVars, baseTa, baseLoss, altRaw, altT, altVars,
      altTa, altLoss, utCur, utAlt, currTa, currLoss, varsOf, maskedMax,
      npMax, countEq, anySteady, exEnvB, exStB])

/-- C2 counterexample: under `exEnvB` the all-default update is accepted
through the unspliced-level disjunct with loss `100` against a previous
accepted loss of `10` — far beyond the 1% relative tolerance. -/
theorem c2_counterexample :
    (update exEnvB exStB {}).2 = true ∧
    lossPrev exStB < (update exEnvB exStB {}).1.loss.getLastD 0 * (99 / 100) := by
  constructor <;>
    norm_num [update, acceptSt, escOk, escActive, plainOk, candLoss, candTa,
      candVars, getVars, lossPrev, baseVars, baseTa, baseLoss, altRaw, altT,
      altVars, altTa, altLoss, utCur, utAlt, currTa, currLoss, varsOf,
      maskedMax, npMax, countEq, anySteady, exEnvB, exStB]

/-- C3: for a fixed task list and work function, folding
`RecoverDynamicsFitResult.collect` over the sequential engine's in-order
arrival and over any arrival the multiprocessing engine can produce —
the size-`B` claimed batches delivered in an arbitrary queue order, each
batch collected element-wise — yields the same final aggregated state
(all per-gene output columns and the remembered model). -/
theorem c3_engines_agree (work : ℕ → GeneFit) (tasks : List ℕ)
    (init : ResultState) (B : ℕ) (hB : 1 ≤ B)
    (arrival : List (List (ℕ × GeneFit)))
    (hperm : arrival.Perm (batches B (outputsOf work tasks))) :
    collectRun tasks.getLast? init arrival.flatten =
      collectRun tasks.getLast? init (outputsOf work tasks) := by
  have hj : arrival.flatten.Perm (outputsOf work tasks) := by
    have h1 := hperm.flatten
    rwa [batches_flatten B hB] at h1
  unfold collectRun
  apply hj.foldl_eq'
  intro x hx y hy z
  by_cases hxy : x.1 = y.1
  · have hx2 : x = (x.1, work x.1) := by
      obtain ⟨g, _, hg⟩ := List.mem_map.mp (hj.mem_iff.mp hx)
      rw [← hg]
    have hy2 : y = (y.1, work y.1) := by
      obtain ⟨g, _, hg⟩ := List.mem_map.mp (hj.mem_iff.mp hy)
      rw [← hg]
    have hxyeq : x = y := by rw [hx2, hy2, hxy]
    rw [hxyeq]
  · exact collect_comm _ x y hxy z

/-- C3 witness: two genes, batch size 1, batches arriving in reversed
order agree with the sequential in-order collection. -/
theorem c3_engines_agree_witness :
    collectRun ([0, 1] : List ℕ).getLast? exInit
        ([[(1, exWork 1)], [(0, exWork 0)]]
          : List (List (ℕ × GeneFit))).flatten =
      collectRun ([0, 1] : List ℕ).getLast? exInit (outputsOf exWork [0, 1]) :=
  c3_engines_agree exWork [0, 1] exInit 1 (by decide)
    [[(1, exWork 1)], [(0, exWork 0)]] (List.Perm.swap _ _ _)

/-- C4: for every task count `N`, batch size `B ≥ 1` and any
interleaving of any number of workers, no claimed index lies outside
`[0, N)`; and once the shared counter has reached `N` (the condition for
every worker to return), the claimed batches cover `[0, N)` exactly —
every task index is claimed exactly once across all workers. -/
theorem c4_claims_partition (N B : ℕ) (evs : List ℕ) (hB : 1 ≤ B) :
    (∀ i ∈ claimedIndices (runPool N B evs), i < N) ∧
    (N ≤ (runPool N B evs).counter →
      claimedIndices (runPool N B evs) = List.range N) := by
  obtain ⟨h1, h2, h3⟩ := runPool_inv N B evs
  constructor
  · intro i hi
    rw [h2] at hi
    have := List.mem_range.mp hi
    omega
  · intro hN
    rw [h2]
    congr 1
    omega

/-- C4 witness: three tasks, batch size two, two workers — the claims
partition `[0, 3)`. -/
theorem c4_claims_partition_witness :
    claimedIndices (runPool 3 2 [0, 1]) = List.range 3 :=
  (c4_claims_partition 3 2 [0, 1] (by decide)).2 (by decide)

/-- C5 (amended): `fit` with a zero iteration budget leaves `alpha`,
`beta`, `gamma` and `scaling` exactly at their initialization values —
but not necessarily `t_` or the time assignment, because the trailing
unconditional `self.update()` runs with `adjust_t_` enabled and its
escape rule can move the switching time (see the counterexample). -/
theorem c5_fit_zero_rates (env : Env) (s : St) :
    (fitZero env s).alpha = s.alpha ∧ (fitZero env s).beta = s.beta ∧
    (fitZero env s).gamma = s.gamma ∧
    (fitZero env s).scaling = s.scaling := by
  obtain ⟨h1, h2, h3, h4⟩ := update_empty_vars env s
  unfold fitZero
  exact ⟨h1, h2, h3, h4⟩

/-- C5 counterexample: a state exactly as `initialize` leaves it (stored
assignment and loss consistent with the current parameters) on which
`fit` with a zero budget changes the switching time `t_` from `2` to `1`
through the escape rule of the trailing `update()`. -/
theorem c5_counterexample :
    Consistent exEnvC exStC ∧ (fitZero exEnvC exStC).t_ ≠ exStC.t_ := by
  constructor
  · refine ⟨?_, ?_, ?_⟩ <;>
      norm_num [Consistent, currTa, varsOf, lossPrev, exEnvC, exStC]
  · norm_num [fitZero, update, acceptSt, escOk, escActive, plainOk, candLoss,
      candTa, candVars, getVars, lossPrev, baseVars, baseTa, baseLoss,
      altRaw, altT, altVars, altTa, altLoss, utCur, utAlt, currTa, currLoss,
      varsOf, maskedMax, npMax, countEq, anySteady, exEnvC, exStC]

/-- C6: whenever `update` returns `False` the whole state is unchanged —
no field is modified and nothing is appended; whenever it returns `True`,
exactly one parameter column and exactly one loss entry are appended (the
previous trace is a prefix and each length grows by one). -/
theorem c6_update_frame (env : Env) (s : St) (c : Candidate) :
    ((update env s c).2 = false → (update env s c).1 = s) ∧
    ((update env s c).2 = true →
      (update env s c).1.pars.length = s.pars.length + 1 ∧
      (update env s c).1.loss.length = s.loss.length + 1 ∧
      (update env s c).1.pars.take s.pars.length = s.pars ∧
      (update env s c).1.loss.take s.loss.length = s.loss) := by
  by_cases h1 : escOk env s c = true
  · rw [update_esc env s c h1]
    constructor
    · intro hcon; cases hcon
    · intro _
      simp [acceptSt, List.take_left]
  · have h1f : escOk env s c = false := by
      revert h1; cases escOk env s c <;> simp
    by_cases h2 : plainOk env s c = true
    · rw [update_plain env s c h1f h2]
      constructor
      · intro hcon; cases hcon
      · intro _
        simp [acceptSt, List.take_left]
    · have h2f : plainOk env s c = false := by
        revert h2; cases plainOk env s c <;> simp
      rw [update_reject env s c h1f h2f]
      constructor
      · intro _; rfl
      · intro hcon; cases hcon

/-- C6 witness: the frame theorem applied at a concrete rejected update
(state returned untouched) and at a concrete accepted update (one column
and one loss entry appended). -/
theorem c6_update_frame_witness :
    (update exEnvA exStA exCandA).1 = exStA ∧
    (update exEnvB exStB {}).1.pars.length = exStB.pars.length + 1 ∧
    (update exEnvB exStB {}).1.loss.length = exStB.loss.length + 1 :=
  ⟨(c6_update_frame exEnvA exStA exCandA).1 (by
      norm_num [update, escOk, escActive, plainOk, candLoss, candTa, candVars,
        getVars, lossPrev, baseVars, baseTa, baseLoss, altRaw, altT, altVars,
        altTa, altLoss, utCur, utAlt, currTa, currLoss, varsOf, maskedMax,
        npMax, countEq, anySteady, exEnvA, exStA, exCandA]),
    ((c6_update_frame exEnvB exStB {}).2 (by
      norm_num [update, escOk, escActive, plainOk, candLoss, candTa, candVars,
        getVars, lossPrev, baseVars, baseTa, baseLoss, altRaw, altT, altVars,
        altTa, altLoss, utCur, utAlt, currTa, currLoss, varsOf, maskedMax,
        npMax, countEq, anySteady, exEnvB, exStB])).1,
    ((c6_update_frame exEnvB exStB {}).2 (by
      norm_num [update, escOk, escActive, plainOk, candLoss, candTa, candVars,
        getVars, lossPrev, baseVars, baseTa, baseLoss, altRaw, altT, altVars,
        altTa, altLoss, utCur, utAlt, currTa, currLoss, varsOf, maskedMax,
        npMax, countEq, anySteady, exEnvB, exStB])).2.1⟩

/-- C7 (amended): in every claiming iteration the shared counter is
advanced by exactly `batch_size`; the batch claimed holds
`min(batch_size, N - counter)` indices, so the advance equals the number
claimed exactly when at least `batch_size` indices remain — when fewer
remain the counter overshoots the task count.  (The claim as frozen says
the counter advances by the number of indices claimed.) -/
theorem c7_counter_advance (N B : ℕ) (st : PoolState) (w : ℕ)
    (hw : w ∉ st.exited) (hc : st.counter < N) :
    (poolStep N B st w).counter = st.counter + B ∧
    (poolStep N B st w).claims =
      st.claims ++ [(w, batchAt N B st.counter)] ∧
    (batchAt N B st.counter).length = min B (N - st.counter) := by
  unfold poolStep
  rw [if_neg hw, if_pos hc]
  exact ⟨rfl, rfl, by simp [batchAt]⟩

/-- C7 witness: the advance theorem applied at a concrete claiming
iteration. -/
theorem c7_counter_advance_witness :
    (poolStep 3 2 initPool 0).counter = initPool.counter + 2 ∧
    (poolStep 3 2 initPool 0).claims =
      initPool.claims ++ [(0, batchAt 3 2 initPool.counter)] ∧
    (batchAt 3 2 initPool.counter).length = min 2 (3 - initPool.counter) :=
  c7_counter_advance 3 2 initPool 0 (by decide) (by decide)

/-- C7 counterexample: with three tasks and batch size two, the second
claiming iteration claims the single remaining index `[2]` but still
advances the counter by two, from `2` to `4` — not by the number of
indices claimed. -/
theorem c7_counterexample :
    (runPool 3 2 [0]).counter = 2 ∧
    (runPool 3 2 [0, 0]).counter = 4 ∧
    ((runPool 3 2 [0, 0]).claims.map Prod.snd).getLastD [] = [2] := by
  decide

/-- C8: if either `test_bimodality` call fails, `initialize` does not
propagate the exception — `bimodalitySection` is total and returns the
neutral outcome: `pval_steady = 1`, `steady_u = 0`, `steady_s = 0`, the
`pval_steady < 1e-3` blend is skipped, and `alpha`, `beta`, `u0_`, `s0_`
keep their quantile-based estimates, so initialization proceeds. -/
theorem c8_bimodality_defaults (ru rs : Except Unit BimodStats)
    (u_inf s_inf alpha beta gamma : ℚ)
    (h : ru = Except.error () ∨ rs = Except.error ()) :
    bimodalitySection ru rs u_inf s_inf alpha beta gamma =
      ⟨1, 0, 0, alpha, beta, u_inf, s_inf⟩ := by
  unfold bimodalitySection
  rw [bimodResolve_err ru rs h]
  norm_num [bimodDefaults]

/-- C8 witness: a concrete failing `u`-test with a successful `s`-test
still produces the neutral outcome. -/
theorem c8_bimodality_defaults_witness :
    bimodalitySection (Except.error ()) (Except.ok ⟨3, 1, 0, 5⟩)
        2 6 4 1 9 = ⟨1, 0, 0, 4, 1, 2, 6⟩ :=
  c8_bimodality_defaults (Except.error ()) (Except.ok ⟨3, 1, 0, 5⟩)
    2 6 4 1 9 (Or.inl rfl)

/-- C9 (amended): when `update` accepts through the escape branch while
the plain candidate was rejected, and the candidate passes neither `u0_`
nor `s0_` (true at every `update` call site in the source) and the
current scaling is nonzero (the rescale ratio divides by it), then
`alpha`, `beta`, `gamma` and `scaling` equal the previously accepted
values, `steady_u`, `u0_` and `s0_` are unchanged, and one loss entry is
appended — only `t_` and the assignment `(t, tau, o)` may differ.  (A
candidate that explicitly passes `u0_`/`s0_` overwrites them even though
its parameters were reverted; see the counterexample.) -/
theorem c9_escape_frame (env : Env) (s : St) (c : Candidate)
    (hu : c.u0_ = none) (hs0 : c.s0_ = none) (hsc : s.scaling ≠ 0)
    (hrej : plainOk env s c = false) (hacc : (update env s c).2 = true) :
    (update env s c).1.alpha = s.alpha ∧ (update env s c).1.beta = s.beta ∧
    (update env s c).1.gamma = s.gamma ∧
    (update env s c).1.scaling = s.scaling ∧
    (update env s c).1.steady_u = s.steady_u ∧
    (update env s c).1.u0_ = s.u0_ ∧ (update env s c).1.s0_ = s.s0_ ∧
    (update env s c).1.loss.length = s.loss.length + 1 := by
  have h1 : escOk env s c = true := by
    by_cases h1 : escOk env s c = true
    · exact h1
    · have h1f : escOk env s c = false := by
        revert h1; cases escOk env s c <;> simp
      rw [update_reject env s c h1f hrej] at hacc; cases hacc
  rw [update_esc env s c h1]
  have hbase : baseVars env s c = varsOf s := by simp [baseVars, hrej]
  simp [acceptSt, altVars, hbase, varsOf, hu, hs0, div_self hsc]

/-- C9 witness: the frame theorem applied at a concrete escape
acceptance after a plain rejection. -/
theorem c9_escape_frame_witness :
    (update exEnvB exStB {}).1.alpha = exStB.alpha ∧
    (update exEnvB exStB {}).1.beta = exStB.beta ∧
    (update exEnvB exStB {}).1.gamma = exStB.gamma ∧
    (update exEnvB exStB {}).1.scaling = exStB.scaling ∧
    (update exEnvB exStB {}).1.steady_u = exStB.steady_u ∧
    (update exEnvB exStB {}).1.u0_ = exStB.u0_ ∧
    (update exEnvB exStB {}).1.s0_ = exStB.s0_ ∧
    (update exEnvB exStB {}).1.loss.length = exStB.loss.length + 1 :=
  c9_escape_frame exEnvB exStB {} rfl rfl (by norm_num [exStB])
    (by norm_num [plainOk, candLoss, candTa, candVars, getVars, lossPrev,
      varsOf, exEnvB, exStB])
    (by norm_num [update, escOk, escActive, plainOk, candLoss, candTa,
      candVars, getVars, lossPrev, baseVars, baseTa, baseLoss, altRaw, altT,
      altVars, altTa, altLoss, utCur, utAlt, currTa, currLoss, varsOf,
      maskedMax, npMax, countEq, anySteady, exEnvB, exStB])

/-- C9 counterexample: the candidate `update(u0_=5)` is rejected by the
plain loss test, accepted through the escape branch, and nevertheless
overwrites `u0_` (from `7` to `5`) — the passed `u0_` survives the
parameter revert, so the accepted state differs in more than `t_`, the
assignment and the loss entry. -/
theorem c9_counterexample :
    plainOk exEnvB exStB exCandD = false ∧
    (update exEnvB exStB exCandD).2 = true ∧
    (update exEnvB exStB exCandD).1.u0_ ≠ exStB.u0_ := by
  refine ⟨?_, ?_, ?_⟩ <;>
    norm_num [update, acceptSt, escOk, escActive, plainOk, candLoss, candTa,
      candVars, getVars, lossPrev, baseVars, baseTa, baseLoss, altRaw, altT,
      altVars, altTa, altLoss, utCur, utAlt, currTa, currLoss, varsOf,
      maskedMax, npMax, countEq, anySteady, exEnvB, exStB, exCandD]

/-- C10: for every batch size `B ≥ 1` and any interleaving, the number
of claiming iterations is bounded by `⌈N / B⌉` (the counter grows by `B`
each claim, so it reaches `N` after at most that many), and once the
counter has reached the task count, any worker's next lock acquisition
makes it return. -/
theorem c10_pool_terminates (N B : ℕ) (evs : List ℕ) (hB : 1 ≤ B) :
    (runPool N B evs).claims.length ≤ (N + B - 1) / B ∧
    ∀ w, N ≤ (runPool N B evs).counter →
      w ∈ (poolStep N B (runPool N B evs) w).exited := by
  obtain ⟨h1, h2, h3⟩ := runPool_inv N B evs
  constructor
  · rw [h1] at h3
    rw [Nat.le_div_iff_mul_le hB, Nat.mul_comm]
    omega
  · intro w hN
    unfold poolStep
    split_ifs with hw hc
    · exact hw
    · omega
    · show w ∈ (runPool N B evs).exited ++ [w]
      simp

/-- C10 witness: with three tasks and batch size two, at most two claims
happen, and after completion a worker's next acquisition exits it. -/
theorem c10_pool_terminates_witness :
    (runPool 3 2 [0, 1, 0]).claims.length ≤ (3 + 2 - 1) / 2 ∧
    0 ∈ (poolStep 3 2 (runPool 3 2 [0, 1, 0]) 0).exited :=
  ⟨(c10_pool_terminates 3 2 [0, 1, 0] (by decide)).1,
    (c10_pool_terminates 3 2 [0, 1, 0] (by decide)).2 0 (by decide)⟩
